import Mathlib

/-!
Verification development for the IWG1 → HDOB converter
(`scripts/recon10s.py`).

Shallow embedding conventions:
* Python floats are modelled as exact rationals (`ℚ`) wherever the source
  performs only field arithmetic and comparisons; quantities that flow
  through transcendental functions (`math.exp`, `math.sin`, `**` with a
  fractional exponent, ...) are modelled in `ℝ`.
* Timestamps are seconds since the Unix epoch as `ℚ` (Python
  `datetime.timestamp()`); calendar rendering (`strftime`) is modelled by
  the standard Gregorian civil-from-days algorithm, which is what Python's
  `datetime` implements.
* `None` is `Option.none`; a function that can raise for reasons the
  claims are about returns `Option`.
* Python's `round` (round-half-to-even) is `pyRound`.
-/

/- ----------------------- constants (source lines 29-35) ----------------------- -/

def G0 : ℚ := 980665 / 100000

def R_D : ℚ := 28705 / 100

def LAPSE : ℚ := 65 / 10000

def P0_STD : ℚ := 101325 / 100

def T0_STD : ℚ := 28815 / 100

def KTS_PER_MPS : ℚ := 19438444924406 / 10000000000000

/- ----------------------- Python rounding and digit padding ----------------------- -/

/-- Python's builtin `round` to an integer: round half to even. -/
def pyRound {α : Type} [LinearOrderedField α] [FloorRing α] (x : α) : ℤ :=
  if x - ⌊x⌋ < 1 / 2 then ⌊x⌋
  else if 1 / 2 < x - ⌊x⌋ then ⌊x⌋ + 1
  else if ⌊x⌋ % 2 = 0 then ⌊x⌋ else ⌊x⌋ + 1

/-- Zero-padding of a natural number to (at least) `w` digits: Python
`f"{n:0wd}"` for non-negative `n`. -/
def padNum (w : ℕ) (n : ℕ) : String :=
  String.mk (List.replicate (w - (toString n).length) '0') ++ toString n

/-- Python `f"{n:0wd}"` for an integer `n`: a negative value keeps its sign
and the total width counts the sign character. -/
def padInt (w : ℕ) (n : ℤ) : String :=
  if n < 0 then "-" ++ padNum (w - 1) (-n).toNat else padNum w n.toNat

/- ----------------------- Gregorian calendar (model of Python datetime) ----------------------- -/

/-- Civil date from days since the Unix epoch (the standard proleptic
Gregorian algorithm, as implemented by Python's `datetime.date`). -/
def civilFromDays (z : ℤ) : ℤ × ℕ × ℕ :=
  let z2 := z + 719468
  let era := z2 / 146097
  let doe := (z2 - era * 146097).toNat
  let yoe := (doe - doe / 1460 + doe / 36524 - doe / 146096) / 365
  let y := (yoe : ℤ) + era * 400
  let doy := doe - (365 * yoe + yoe / 4 - yoe / 100)
  let mp := (5 * doy + 2) / 153
  let d := doy - (153 * mp + 2) / 5 + 1
  let m := if mp < 10 then mp + 3 else mp - 9
  (if m ≤ 2 then y + 1 else y, m, d)

/-- Day of month of an epoch-day count. -/
def dayOfMonth (days : ℤ) : ℕ := (civilFromDays days).2.2

/-- `strftime("%H%M%S")` of an epoch timestamp (UTC). -/
def hhmmssOf (t : ℚ) : String :=
  let sod := (⌊t⌋).emod 86400
  padInt 2 (sod.ediv 3600) ++ padInt 2 ((sod.emod 3600).ediv 60) ++ padInt 2 (sod.emod 60)

/-- `strftime("%d%H%M")` of an epoch timestamp (UTC). -/
def ddhhmmOf (t : ℚ) : String :=
  let n := ⌊t⌋
  let sod := n.emod 86400
  padNum 2 (dayOfMonth (n.ediv 86400)) ++ padInt 2 (sod.ediv 3600) ++ padInt 2 ((sod.emod 3600).ediv 60)

/-- `strftime("%Y%m%d")` of an epoch-day count (UTC date). -/
def yyyymmddOf (days : ℤ) : String :=
  padInt 4 (civilFromDays days).1 ++ padNum 2 (civilFromDays days).2.1 ++ padNum 2 (civilFromDays days).2.2

/- ----------------------- data model (class IWG1Row, lines 46-59) ----------------------- -/

/-- One parsed IWG1 sample (`IWG1Row`): timestamp in epoch seconds plus the
eight optional numeric fields, in the order of `IWG1Row.__init__`. -/
structure Row where
  t : ℚ
  lat : Option ℚ
  lon : Option ℚ
  ps_hpa : Option ℚ
  ga_m : Option ℚ
  temp_c : Option ℚ
  td_c : Option ℚ
  wspd_ms : Option ℚ
  wdir_deg : Option ℚ
deriving DecidableEq, Repr

def dummyRow : Row := ⟨0, none, none, none, none, none, none, none, none⟩

/- ----------------------- parsing helpers (lines 62-117) ----------------------- -/

/-- Python `str.strip()` (whitespace from both ends). -/
def pyStrip (s : String) : String :=
  String.mk (((s.data.dropWhile Char.isWhitespace).reverse.dropWhile Char.isWhitespace).reverse)

/-- Python `str.lower()`. -/
def lowerStr (s : String) : String := String.mk (s.data.map Char.toLower)

/-- The tokens `parse_float` treats specially (source line 65). -/
def pyFloatSpecials : List String := ["nan", "inf", "+inf", "-inf"]

/-- `parse_float` (lines 62-69).  The Python builtin float-literal parser is
abstracted as the total function `lit` (returning `none` where `float(x)`
would raise); everything the repository's own code does is explicit. -/
def parse_float (lit : String → Option ℚ) (x : String) : Option ℚ :=
  let x2 := pyStrip x
  if x2 = "" ∨ lowerStr x2 ∈ pyFloatSpecials then none else lit x2

/-- `parse_iwg1_row` (lines 102-117).  `pt` abstracts `parse_time`
(lines 71-88), returning `none` where it would raise `ValueError`; the
surrounding `try/except` makes any such failure — or a missing timestamp
token — reject the whole row, while field parsing never raises. -/
def parse_iwg1_row (lit : String → Option ℚ) (pt : String → Option ℚ)
    (parts : List String) : Option Row :=
  match parts[1]? with
  | none => none
  | some ts =>
    match pt ts with
    | none => none
    | some t =>
      let get := fun (idx : ℕ) =>
        match parts[idx]? with
        | some v => parse_float lit v
        | none => none
      let gps_msl_alt_m := get 4
      let ga_m := match gps_msl_alt_m with
        | some v => some v
        | none => get 5
      some { t := t, lat := get 2, lon := get 3, ps_hpa := get 23, ga_m := ga_m,
             temp_c := get 20, td_c := get 21, wspd_ms := get 26, wdir_deg := get 27 }

/- ----------------------- physics helpers (lines 120-144) ----------------------- -/

/-- `isa_z_from_p` (lines 120-123).  `**` on non-negative floats is real
exponentiation (`Real.rpow`). -/
noncomputable def isa_z_from_p (ps_hpa : ℝ) : ℝ :=
  max 0 (((T0_STD : ℝ) / (LAPSE : ℝ)) * (1 - (ps_hpa / (P0_STD : ℝ)) ^ (((R_D : ℝ) * (LAPSE : ℝ)) / (G0 : ℝ))))

/-- `d_value_m` (lines 125-130). -/
noncomputable def d_value_m (ga_m : Option ℝ) (ps_hpa : Option ℝ) : Option ℤ :=
  match ga_m, ps_hpa with
  | some ga, some ps => some (pyRound (ga - isa_z_from_p ps))
  | _, _ => none

/-- `extrapolate_surface_pressure` (lines 132-144). -/
noncomputable def extrapolate_surface_pressure (ps_hpa z_m : Option ℝ) (t_c : Option ℝ) : Option ℝ :=
  match ps_hpa, z_m with
  | some ps, some z =>
    let T_z : ℝ := match t_c with
      | none => (T0_STD : ℝ) - (LAPSE : ℝ) * isa_z_from_p ps
      | some tc => tc + 273.15
    let T_bar := T_z + 0.5 * (LAPSE : ℝ) * z
    if T_bar ≤ 0 then none
    else some (ps * Real.exp ((G0 : ℝ) * z / ((R_D : ℝ) * T_bar)))
  | _, _ => none

/- ----------------------- HDOB encoding helpers (lines 147-212) ----------------------- -/

/-- Degrees/minutes pair of `lat_to_LLLLH` (lines 149-154): floor degrees,
rounded minutes, carrying 60 minutes into the degrees. -/
def latDegMin (lat : ℚ) : ℤ × ℤ :=
  let la := |lat|
  let deg := ⌊la⌋
  let minutes := pyRound ((la - (deg : ℚ)) * 60)
  if minutes = 60 then (deg + 1, 0) else (deg, minutes)

/-- `lat_to_LLLLH` (lines 147-155). -/
def lat_to_LLLLH (lat : ℚ) : String :=
  let hemi := if 0 ≤ lat then "N" else "S"
  padInt 2 (latDegMin lat).1 ++ padInt 2 (latDegMin lat).2 ++ hemi

/-- Degrees/minutes pair of `lon_to_NNNNNH` (lines 159-164). -/
def lonDegMin (lon : ℚ) : ℤ × ℤ :=
  let lo := |lon|
  let deg := ⌊lo⌋
  let minutes := pyRound ((lo - (deg : ℚ)) * 60)
  if minutes = 60 then (deg + 1, 0) else (deg, minutes)

/-- `lon_to_NNNNNH` (lines 157-165). -/
def lon_to_NNNNNH (lon : ℚ) : String :=
  let hemi := if 0 ≤ lon then "E" else "W"
  padInt 3 (lonDegMin lon).1 ++ padInt 2 (lonDegMin lon).2 ++ hemi

/-- `encode_PPPP` (lines 167-173): tenths of hPa with a single wrap
subtraction at 10000. -/
noncomputable def encode_PPPP (ps_hpa : Option ℝ) : String :=
  match ps_hpa with
  | none => "////"
  | some ps =>
    let tenths := pyRound (ps * 10)
    let tenths := if 10000 ≤ tenths then tenths - 10000 else tenths
    padInt 4 tenths

/-- `encode_GGGGG` (lines 175-179). -/
def encode_GGGGG (z_m : Option ℚ) : String :=
  match z_m with
  | none => "/////"
  | some z => padInt 5 (pyRound z)

/-- `encode_XXXX` (lines 181-193). -/
noncomputable def encode_XXXX (ps_hpa z_m : Option ℝ) (t_c : Option ℝ) : String :=
  match ps_hpa, z_m with
  | some ps, some z =>
    if 550 ≤ ps then
      encode_PPPP (extrapolate_surface_pressure (some ps) (some z) t_c)
    else
      match d_value_m (some z) (some ps) with
      | none => "////"
      | some d =>
        let d2 := if d < 0 then 5000 + d else d
        padInt 4 (d2 % 10000)
  | _, _ => "////"

/-- `encode_sxxx` (lines 195-200). -/
def encode_sxxx (val_c : Option ℚ) : String :=
  match val_c with
  | none => "///"
  | some v =>
    let sign := if 0 ≤ v then "+" else "-"
    sign ++ padNum 3 (pyRound (|v| * 10)).toNat

/-- `encode_wwwSSS` (lines 202-207). -/
noncomputable def encode_wwwSSS (wdir_deg wspd_ms : Option ℝ) : String :=
  match wdir_deg, wspd_ms with
  | some d, some s =>
    padInt 3 ((pyRound d).emod 360) ++ padInt 3 (pyRound (s * (KTS_PER_MPS : ℝ)))
  | _, _ => "//////"

/-- `encode_TTT` (lines 209-212). -/
def encode_TTT (val : Option ℤ) : String :=
  match val with
  | none => "///"
  | some v => padInt 3 v

/- ----------------------- wind mean/peak logic (lines 215-256) ----------------------- -/

/-- `math.atan2 y x` is the argument of the complex number `x + y i`. -/
noncomputable def atan2 (y x : ℝ) : ℝ := Complex.arg (Complex.ofReal x + Complex.ofReal y * Complex.I)

/-- `math.hypot`. -/
noncomputable def hypot (x y : ℝ) : ℝ := Real.sqrt (x ^ 2 + y ^ 2)

/-- Python `%` on reals: the remainder has the sign of the divisor. -/
noncomputable def fmodR (x y : ℝ) : ℝ := x - y * (⌊x / y⌋ : ℤ)

/-- Loop body of `vector_mean_wind` (lines 219-225): accumulate `(u, v, n)`,
skipping pairs with a missing component. -/
noncomputable def windAccum (acc : ℝ × ℝ × ℕ) (p : Option ℚ × Option ℚ) : ℝ × ℝ × ℕ :=
  match p with
  | (some d, some s) =>
    (acc.1 + -((s : ℝ)) * Real.sin ((d : ℝ) * Real.pi / 180),
     acc.2.1 + -((s : ℝ)) * Real.cos ((d : ℝ) * Real.pi / 180),
     acc.2.2 + 1)
  | _ => acc

/-- `vector_mean_wind` (lines 215-232). -/
noncomputable def vector_mean_wind (dir_deg_list spd_ms_list : List (Option ℚ)) :
    Option ℝ × Option ℝ :=
  if dir_deg_list.isEmpty ∨ spd_ms_list.isEmpty then (none, none)
  else
    let uvn := (dir_deg_list.zip spd_ms_list).foldl windAccum (0, 0, 0)
    if uvn.2.2 = 0 then (none, none)
    else
      let u := uvn.1 / (uvn.2.2 : ℝ)
      let v := uvn.2.1 / (uvn.2.2 : ℝ)
      let spd := hypot u v
      let dirRad := atan2 (-u) (-v)
      let deg := fmodR (dirRad * 180 / Real.pi + 360) 360
      (some deg, some spd)

/-- The `while dq and dq[0][0] < tmin` eviction loop of `compute_peak10s`
(lines 248-250), updating the deque, running sum and count. -/
def evictOld (tmin : ℚ) : List (ℚ × ℚ) → ℚ → ℕ → List (ℚ × ℚ) × ℚ × ℕ
  | [], s, c => ([], s, c)
  | (t0, s0) :: rest, s, c =>
    if t0 < tmin then evictOld tmin rest (s - s0) (c - 1) else ((t0, s0) :: rest, s, c)

/-- The main `for t, s in samples` loop of `compute_peak10s` (lines 244-252):
append the sample, evict entries older than `t - 10`, track the best
window mean. -/
def peakGo : List (ℚ × ℚ) → List (ℚ × ℚ) → ℚ → ℕ → ℚ → ℚ
  | [], _, _, _, best => best
  | (t, s) :: restSamples, dq, sum, count, best =>
    let e := evictOld (t - 10) (dq ++ [(t, s)]) (sum + s) (count + 1)
    let best2 := if 0 < e.2.2 then max best (e.2.1 / (e.2.2 : ℚ)) else best
    peakGo restSamples e.1 e.2.1 e.2.2 best2

/-- `compute_peak10s` (lines 234-256). -/
def compute_peak10s (times : List ℚ) (spd_ms_list : List (Option ℚ)) : Option ℚ :=
  if times.isEmpty then none
  else
    let samples := (times.zip spd_ms_list).filterMap
      (fun p => match p.2 with | some s => some (p.1, s) | none => none)
    match samples with
    | [] => none
    | first :: restS =>
      let bestMean := peakGo (first :: restS) [] 0 0 0
      if bestMean = 0 then some ((restS.foldl (fun m q => max m q.2) first.2) * KTS_PER_MPS)
      else some (bestMean * KTS_PER_MPS)

/-- The spec's peak-gust scenario: 13 samples at 1 Hz. -/
def gustTimes : List ℚ := [0, 1, 2, 3, 4, 5, 6, 7, 8, 9, 10, 11, 12]

/-- The spec's peak-gust scenario speeds (m/s). -/
def gustSpeeds : List (Option ℚ) :=
  [some 10, some 10, some 10, some 20, some 20, some 20, some 20, some 20, some 20, some 20,
   some 20, some 20, some 20]

/- ----------------------- time-of-day filter (lines 412-430) ----------------------- -/

/-- UTC second-of-day of an epoch timestamp (`t.hour*3600 + t.minute*60 + t.second`). -/
def secOfDay (t : ℚ) : ℤ := (⌊t⌋).emod 86400

/-- `_filter_rows_by_time_of_day` (lines 412-430). -/
def filterRowsByTimeOfDay (rows : List Row) (startSec endSec : Option ℤ) : List Row :=
  if startSec = none ∧ endSec = none then rows
  else
    rows.filter (fun r =>
      let sec := secOfDay r.t
      match startSec, endSec with
      | some s, some e => if s ≤ e then decide (s ≤ sec ∧ sec ≤ e) else decide (s ≤ sec ∨ sec ≤ e)
      | some s, none => decide (s ≤ sec)
      | none, some e => decide (sec ≤ e)
      | none, none => true)

/- ----------------------- conversion to HDOB (lines 287-372) ----------------------- -/

/-- Python's stable `sorted(rows, key=lambda r: r.t)` (line 293). -/
def sortRows (rows : List Row) : List Row :=
  List.insertionSort (fun a b => a.t ≤ b.t) rows

/-- Line 298: the first bin start is the floor multiple of the interval. -/
def binStartOf (t : ℚ) (interval : ℕ) : ℚ :=
  ((⌊t / (interval : ℚ)⌋ : ℤ) : ℚ) * (interval : ℚ)

/-- Lines 359-362: the next bin is contiguous unless the next sample lies at
least one whole interval past the current bin's end, in which case it is
re-anchored to that sample's own interval boundary. -/
def nextBinStart (interval : ℕ) (rest : List Row) (curEnd : ℚ) : ℚ :=
  match rest with
  | [] => curEnd
  | r :: _ => if curEnd + (interval : ℚ) ≤ r.t then binStartOf r.t interval else curEnd

/-- Rendering of one non-empty bin (lines 307-357): per-field arithmetic
means ignoring missing values, wind reduction, peak gust, field encoders,
and the whitespace-joined report line. -/
noncomputable def renderLine (flags : String) (binRows : List Row) (midTime : ℚ) : String :=
  let latVals := binRows.filterMap Row.lat
  let lat := if latVals.isEmpty then none else some (latVals.sum / (latVals.length : ℚ))
  let lonVals := binRows.filterMap Row.lon
  let lon := if lonVals.isEmpty then none else some (lonVals.sum / (lonVals.length : ℚ))
  let psVals := binRows.filterMap Row.ps_hpa
  let ps := if psVals.isEmpty then none else some (psVals.sum / (psVals.length : ℚ))
  let gaVals := binRows.filterMap Row.ga_m
  let ga := if gaVals.isEmpty then none else some (gaVals.sum / (gaVals.length : ℚ))
  let tVals := binRows.filterMap Row.temp_c
  let t_c := if tVals.isEmpty then none else some (tVals.sum / (tVals.length : ℚ))
  let tdVals := binRows.filterMap Row.td_c
  let td_c := if tdVals.isEmpty then none else some (tdVals.sum / (tdVals.length : ℚ))
  let dList := binRows.filterMap (fun r => if r.wdir_deg.isSome && r.wspd_ms.isSome then some r.wdir_deg else none)
  let sList := binRows.filterMap (fun r => if r.wdir_deg.isSome && r.wspd_ms.isSome then some r.wspd_ms else none)
  let mw := vector_mean_wind dList sList
  let peak10 := compute_peak10s (binRows.map Row.t) (binRows.map Row.wspd_ms)
  let latStr := match lat with | some v => lat_to_LLLLH v | none => "/////"
  let lonStr := match lon with | some v => lon_to_NNNNNH v | none => "//////"
  let pppp := encode_PPPP (ps.map (fun q => (q : ℝ)))
  let ggggg := encode_GGGGG ga
  let xxxx := encode_XXXX (ps.map (fun q => (q : ℝ))) (ga.map (fun q => (q : ℝ))) (t_c.map (fun q => (q : ℝ)))
  let sTTT := encode_sxxx t_c
  let sddd := encode_sxxx td_c
  let wwwSSS := encode_wwwSSS mw.1 mw.2
  let mmm := match peak10 with
    | none => "///"
    | some pk => encode_TTT (some (pyRound pk))
  String.intercalate " " [hhmmssOf midTime, latStr, lonStr, pppp, ggggg, xxxx, sTTT, sddd, wwwSSS, mmm, "///", "///", flags]

/-- `0` when the head sample (if any) falls inside the bin starting at
`binStart`, `1` otherwise: the extra tick of the termination measure of the
binning loop. -/
def binPending (interval : ℕ) (l : List Row) (binStart : ℚ) : ℕ :=
  match l with
  | [] => 0
  | r :: _ => if r.t < binStart + (interval : ℚ) then 0 else 1

/-- The `while i < len(rows)` binning loop (lines 300-362), emitting one
report line per non-empty bin.  An interval of `0` would make the source
loop forever (and `// 0` raise), so it is guarded out. -/
noncomputable def binLoop (interval : ℕ) (flags : String) : List Row → ℚ → List String
  | [], _ => []
  | r :: rs, binStart =>
    if _hi : interval = 0 then []
    else
      let curEnd := binStart + (interval : ℚ)
      let binRows := (r :: rs).takeWhile (fun x => decide (x.t < curEnd))
      let rest := (r :: rs).dropWhile (fun x => decide (x.t < curEnd))
      let out := if binRows.isEmpty then ([] : List String)
                 else [renderLine flags binRows (binStart + ((interval / 2 : ℕ) : ℚ))]
      out ++ binLoop interval flags rest (nextBinStart interval rest curEnd)
  termination_by l binStart => 2 * l.length + binPending interval l binStart
  decreasing_by
    by_cases h : r.t < binStart + (interval : ℚ)
    · have hdw : (r :: rs).dropWhile (fun x => decide (x.t < binStart + (interval : ℚ)))
          = rs.dropWhile (fun x => decide (x.t < binStart + (interval : ℚ))) := by
        simp [List.dropWhile_cons, h]
      have hlen : ((r :: rs).dropWhile (fun x => decide (x.t < binStart + (interval : ℚ)))).length
          ≤ rs.length := by
        rw [hdw]; exact (List.dropWhile_sublist _).length_le
      have hp : binPending interval ((r :: rs).dropWhile (fun x => decide (x.t < binStart + (interval : ℚ))))
          (nextBinStart interval ((r :: rs).dropWhile (fun x => decide (x.t < binStart + (interval : ℚ)))) (binStart + (interval : ℚ))) ≤ 1 := by
        unfold binPending
        split <;> simp_all <;> split <;> simp_all
      simp only [List.length_cons]
      omega
    · have hdw : (r :: rs).dropWhile (fun x => decide (x.t < binStart + (interval : ℚ)))
          = r :: rs := by
        simp [List.dropWhile_cons, h]
      have hi2 : (0 : ℚ) < (interval : ℚ) := by
        have : 0 < interval := Nat.pos_of_ne_zero _hi
        exact_mod_cast this
      have hcur : binPending interval (r :: rs) binStart = 1 := by
        simp [binPending, h]
      have hnext : binPending interval ((r :: rs).dropWhile (fun x => decide (x.t < binStart + (interval : ℚ))))
          (nextBinStart interval ((r :: rs).dropWhile (fun x => decide (x.t < binStart + (interval : ℚ)))) (binStart + (interval : ℚ))) = 0 := by
        rw [hdw]
        unfold binPending nextBinStart
        by_cases hjump : binStart + (interval : ℚ) + (interval : ℚ) ≤ r.t
        · simp only [hjump, if_true]
          have hfl : r.t < binStartOf r.t interval + (interval : ℚ) := by
            unfold binStartOf
            have h1 : r.t / (interval : ℚ) < (⌊r.t / (interval : ℚ)⌋ : ℚ) + 1 := Int.lt_floor_add_one _
            have h2 : r.t < ((⌊r.t / (interval : ℚ)⌋ : ℚ) + 1) * (interval : ℚ) := by
              have := (div_lt_iff₀ hi2).mp h1
              linarith
            linarith [h2]
          simp [hfl]
        · simp only [hjump, if_false]
          have : r.t < binStart + (interval : ℚ) + (interval : ℚ) := lt_of_not_le hjump
          simp [this]
      rw [hdw] at hnext ⊢
      simp only [hnext, hcur, List.length_cons]
      omega

/-- `out_lines[i:i+k]` chunking of line 366-367 (`range(0, len, k)` with
step `k ≥ 1`; Python raises on `k = 0`, where this model emits chunks of
one). -/
def chunks {α : Type} (k : ℕ) : List α → List (List α)
  | [] => []
  | a :: rest => (a :: rest.take (k - 1)) :: chunks k (rest.drop (k - 1))
  termination_by l => l.length
  decreasing_by
    simp only [List.length_cons, List.length_drop]
    omega

/-- The timestamp of the chronologically first sample: `rows[0].t` after the
sort on line 293 (`start` on line 294). -/
def hdobStart (rows : List Row) : ℚ := ((sortRows rows).headD dummyRow).t

/-- `out_lines` of `convert_iwg1_to_hdob` (lines 295-362). -/
noncomputable def hdobOutLines (rows : List Row) (interval : ℕ) (flags : String) : List String :=
  binLoop interval flags (sortRows rows) (binStartOf (hdobStart rows) interval)

/-- The `ddhhmm` header stamp of line 365: first sample time plus half the
interval, rendered day-hour-minute.  (When no line was produced the source
substitutes the wall clock; no message exists to carry it, so the model
keeps the same formula.) -/
def hdobDdhhmm (rows : List Row) (interval : ℕ) : String :=
  ddhhmmOf (hdobStart rows + ((interval / 2 : ℕ) : ℚ))

/-- The per-message line lists of lines 364-371: each message is a header,
a mission line with its 1-based two-digit observation number, the chunk of
report lines, and the `$$` terminator. -/
noncomputable def hdobMsgLineLists (rows : List Row) (mission : String) (stormDate : ℤ)
    (interval linesPerMsg : ℕ) (headerCenter wmoHeader flags : String) : List (List String) :=
  (chunks linesPerMsg (hdobOutLines rows interval flags)).enum.map (fun p =>
    (wmoHeader ++ " " ++ headerCenter ++ " " ++ hdobDdhhmm rows interval) ::
    (mission ++ " HDOB " ++ padInt 2 ((p.1 : ℤ) + 1) ++ " " ++ yyyymmddOf stormDate) ::
    (p.2 ++ ["$$"]))

/-- `convert_iwg1_to_hdob` (lines 287-372); `stormDate` is the storm date as
epoch days.  Source defaults: `interval_s = 30`, `lines_per_msg = 20`,
`header_center = "KNHC"`, `wmo_header = "URNT15"`, `default_flags = "00"`. -/
noncomputable def convert_iwg1_to_hdob (rows : List Row) (mission : String) (stormDate : ℤ)
    (interval linesPerMsg : ℕ) (headerCenter wmoHeader flags : String) : String :=
  if rows.isEmpty then ""
  else
    let msgs := (hdobMsgLineLists rows mission stormDate interval linesPerMsg headerCenter wmoHeader flags).map
      (String.intercalate "\n")
    String.intercalate "\n\n" msgs ++ (if msgs.isEmpty then "" else "\n")

/- ----------------------- spec-side definitions ----------------------- -/

/-- The keep predicate of the time-of-day window filter as the
specification states it, for comparison with `filterRowsByTimeOfDay`. -/
def specTimeOfDayKeep (startSec endSec : Option ℤ) (sec : ℤ) : Bool :=
  match startSec, endSec with
  | some s, some e => if s ≤ e then decide (s ≤ sec ∧ sec ≤ e) else decide (s ≤ sec ∨ sec ≤ e)
  | some s, none => decide (s ≤ sec)
  | none, some e => decide (sec ≤ e)
  | none, none => true

/-- Surface-pressure extrapolation as claim C3 words it: the fallback
layer temperature is the standard-atmosphere temperature at the sample's
own altitude `z` (the code instead evaluates it at the ISA altitude
derived from the pressure). -/
noncomputable def specSurfacePressureC3 (ps z : ℝ) (t_c : Option ℝ) : Option ℝ :=
  let T_z : ℝ := match t_c with
    | none => (T0_STD : ℝ) - (LAPSE : ℝ) * z
    | some tc => tc + 273.15
  let T_bar := T_z + 0.5 * (LAPSE : ℝ) * z
  if T_bar ≤ 0 then none
  else some (ps * Real.exp ((G0 : ℝ) * z / ((R_D : ℝ) * T_bar)))

/- ===================== helper lemmas ===================== -/

theorem pyRound_intCast {α : Type} [LinearOrderedField α] [FloorRing α] (n : ℤ) :
    pyRound ((n : α)) = n := by
  unfold pyRound
  simp

theorem pyRound_eq_floor_or_ceil {α : Type} [LinearOrderedField α] [FloorRing α] (x : α) :
    pyRound x = ⌊x⌋ ∨ pyRound x = ⌊x⌋ + 1 := by
  unfold pyRound
  split
  · exact Or.inl rfl
  · split
    · exact Or.inr rfl
    · split
      · exact Or.inl rfl
      · exact Or.inr rfl

theorem pyRound_nonneg {α : Type} [LinearOrderedField α] [FloorRing α] {x : α} (h : 0 ≤ x) :
    0 ≤ pyRound x := by
  have hf : (0 : ℤ) ≤ ⌊x⌋ := Int.floor_nonneg.mpr h
  rcases pyRound_eq_floor_or_ceil x with h2 | h2 <;> omega

theorem pyRound_le_of_lt_intCast {α : Type} [LinearOrderedField α] [FloorRing α] {x : α} {n : ℤ}
    (h : x < (n : α)) : pyRound x ≤ n := by
  have hf : ⌊x⌋ < n := by
    have := Int.floor_le_floor h.le
    rcases lt_or_eq_of_le this with h2 | h2
    · simpa using h2
    · by_contra hc
      have : (n : α) ≤ x := by
        calc (n : α) = ((⌊x⌋ : ℤ) : α) := by rw [h2, Int.floor_intCast]
        _ ≤ x := Int.floor_le x
      exact absurd h (not_lt.mpr this)
  rcases pyRound_eq_floor_or_ceil x with h2 | h2 <;> omega

theorem pyRound_add_int_even {α : Type} [LinearOrderedField α] [FloorRing α] (x : α) (n : ℤ)
    (hn : n % 2 = 0) : pyRound (x + (n : α)) = pyRound x + n := by
  unfold pyRound
  rw [Int.floor_add_int]
  have harg : x + (n : α) - ((⌊x⌋ + n : ℤ) : α) = x - (⌊x⌋ : α) := by
    push_cast
    ring
  rw [harg]
  have hpar : (⌊x⌋ + n) % 2 = ⌊x⌋ % 2 := by omega
  rw [hpar]
  split
  · rfl
  · split
    · ring
    · split <;> ring

theorem padInt_of_nonneg (w : ℕ) {n : ℤ} (h : 0 ≤ n) : padInt w n = padNum w n.toNat := by
  unfold padInt
  rw [if_neg (not_lt.mpr h)]

/- ===================== claims ===================== -/

/-- **C7.** The time-of-day filter keeps exactly the samples whose UTC
second-of-day satisfies the claimed window condition: closed interval when
`start ≤ end`, wrap-around disjunction when `start > end`, one-sided when
only one bound is given, and everything when no bound is given. -/
theorem filterRows_time_of_day_spec (rows : List Row) (startSec endSec : Option ℤ) :
    filterRowsByTimeOfDay rows startSec endSec
      = rows.filter (fun r => specTimeOfDayKeep startSec endSec (secOfDay r.t)) := by
  cases startSec <;> cases endSec <;>
    simp [filterRowsByTimeOfDay, specTimeOfDayKeep]

/-- **C8.** Field parsing maps the empty token and the special tokens
`nan`/`inf`/`+inf`/`-inf` (case-insensitively, after stripping) to Missing,
maps any other token the float parser rejects to Missing as well, and a row
with a timestamp token is rejected exactly when that timestamp token is
unparseable. -/
theorem parse_missing_fields_spec (lit pt : String → Option ℚ) (x : String) (parts : List String) :
    (pyStrip x = "" → parse_float lit x = none)
    ∧ (lowerStr (pyStrip x) ∈ pyFloatSpecials → parse_float lit x = none)
    ∧ (lit (pyStrip x) = none → parse_float lit x = none)
    ∧ (2 ≤ parts.length →
        ((parse_iwg1_row lit pt parts = none) ↔ pt (parts.getD 1 "") = none)) := by
  refine ⟨?_, ?_, ?_, ?_⟩
  · intro h
    simp [parse_float, h]
  · intro h
    simp [parse_float, h]
  · intro h
    by_cases hc : pyStrip x = "" ∨ lowerStr (pyStrip x) ∈ pyFloatSpecials
    · simp [parse_float, hc]
    · simp [parse_float, hc, h]
  · intro hlen
    have h1 : 1 < parts.length := by omega
    have hget : parts[1]? = some parts[1] := List.getElem?_eq_getElem h1
    have hgd : parts.getD 1 "" = parts[1] := List.getD_eq_getElem _ _ h1
    rw [hgd]
    unfold parse_iwg1_row
    rw [hget]
    cases hpt : pt parts[1] <;> simp [hpt]

/-- Witness for C8 at concrete inputs: the always-failing literal parser
and time parser, the token `" NaN "`, and a two-token row. -/
theorem parse_missing_fields_spec_witness :
    (parse_float (fun _ => none) " NaN " = none)
    ∧ ((parse_iwg1_row (fun _ => none) (fun _ => some 0) ["IWG1", "tt"] = none)
        ↔ (fun _ => some (0 : ℚ)) "tt" = none) := by
  constructor
  · exact (parse_missing_fields_spec (fun _ => none) (fun _ => some 0) " NaN " []).2.1 (by decide)
  · exact (parse_missing_fields_spec (fun _ => none) (fun _ => some 0) "" ["IWG1", "tt"]).2.2.2 (by decide)

theorem pyRound_eq_floor_add_one {α : Type} [LinearOrderedField α] [FloorRing α] {x : α} {n : ℤ}
    (hfl : ⌊x⌋ = n) (h : 1 / 2 < x - (n : α)) : pyRound x = n + 1 := by
  unfold pyRound
  rw [hfl, if_neg (by linarith), if_pos h]

theorem pyRound_eq_floor_self {α : Type} [LinearOrderedField α] [FloorRing α] {x : α} {n : ℤ}
    (hfl : ⌊x⌋ = n) (h : x - (n : α) < 1 / 2) : pyRound x = n := by
  unfold pyRound
  rw [hfl, if_pos h]

theorem latDegMin_minutes_bounds (q : ℚ) :
    0 ≤ (latDegMin q).2 ∧ (latDegMin q).2 < 60 := by
  simp only [latDegMin]
  have hfr : |q| - ((⌊|q|⌋ : ℤ) : ℚ) = Int.fract |q| := rfl
  have h0 : (0 : ℚ) ≤ (|q| - ((⌊|q|⌋ : ℤ) : ℚ)) * 60 := by
    rw [hfr]
    have := Int.fract_nonneg (|q|)
    positivity
  have h1 : (|q| - ((⌊|q|⌋ : ℤ) : ℚ)) * 60 < ((60 : ℤ) : ℚ) := by
    rw [hfr]
    have := Int.fract_lt_one (|q|)
    push_cast
    nlinarith
  have hge := pyRound_nonneg h0
  have hle := pyRound_le_of_lt_intCast h1
  split
  · omega
  · constructor
    · exact hge
    · omega

theorem lonDegMin_eq_latDegMin (q : ℚ) : lonDegMin q = latDegMin q := rfl

theorem latDegMin_599999 : latDegMin (599999 / 10000) = (60, 0) := by
  have habs : |(599999 / 10000 : ℚ)| = 599999 / 10000 := abs_of_nonneg (by norm_num)
  have hfl : (⌊(599999 / 10000 : ℚ)⌋ : ℤ) = 59 := by norm_num
  have hpr : pyRound (((599999 / 10000 : ℚ) - ((59 : ℤ) : ℚ)) * 60) = 60 := by
    have harg : ((599999 / 10000 : ℚ) - ((59 : ℤ) : ℚ)) * 60 = 29997 / 500 := by norm_num
    rw [harg]
    have hfl2 : (⌊(29997 / 500 : ℚ)⌋ : ℤ) = 59 := by norm_num
    have := pyRound_eq_floor_add_one hfl2 (by norm_num)
    omega
  simp only [latDegMin, habs, hfl, hpr]
  norm_num

/-- **C10.** The minutes subfield of the encoded latitude and longitude is
always between 00 and 59: a rounded value of 60 minutes carries into the
degrees subfield, so latitude 59.9999 encodes as `6000N`, never `5960N`
(and longitude 59.9999 as `06000E`). -/
theorem latlon_minutes_carry_spec (lat lon : ℚ) :
    (0 ≤ (latDegMin lat).2 ∧ (latDegMin lat).2 < 60)
    ∧ (0 ≤ (lonDegMin lon).2 ∧ (lonDegMin lon).2 < 60)
    ∧ lat_to_LLLLH (599999 / 10000) = "6000N"
    ∧ lat_to_LLLLH (599999 / 10000) ≠ "5960N"
    ∧ lon_to_NNNNNH (599999 / 10000) = "06000E" := by
  refine ⟨latDegMin_minutes_bounds lat, ?_, ?_, ?_, ?_⟩
  · rw [lonDegMin_eq_latDegMin]
    exact latDegMin_minutes_bounds lon
  · simp only [lat_to_LLLLH, latDegMin_599999]
    rw [if_pos (by norm_num)]
    decide
  · simp only [lat_to_LLLLH, latDegMin_599999]
    rw [if_pos (by norm_num)]
    decide
  · simp only [lon_to_NNNNNH, lonDegMin_eq_latDegMin, latDegMin_599999]
    rw [if_pos (by norm_num)]
    decide

/-- **C4 (amended).** For pressures whose tenths value `round(p*10)` lies in
`[0, 20000)` the encoder agrees with `round(p*10) mod 10000` zero-padded to
4 digits, Missing renders `////`, and `encode_PPPP (p + 1000) =
encode_PPPP p` whenever `round(p*10)` lies in `[0, 10000)`.  (The source
subtracts 10000 once rather than reducing mod 10000, so the claimed
identities fail outside these ranges.) -/
theorem encode_PPPP_spec (p : ℝ) :
    (encode_PPPP none = "////")
    ∧ (0 ≤ pyRound (p * 10) → pyRound (p * 10) < 20000 →
        encode_PPPP (some p) = padInt 4 (pyRound (p * 10) % 10000))
    ∧ (0 ≤ pyRound (p * 10) → pyRound (p * 10) < 10000 →
        encode_PPPP (some (p + 1000)) = encode_PPPP (some p)) := by
  refine ⟨rfl, ?_, ?_⟩
  · intro h0 h2
    simp only [encode_PPPP]
    split
    · rename_i hge
      have hmod : pyRound (p * 10) % 10000 = pyRound (p * 10) - 10000 := by omega
      rw [hmod]
    · rename_i hlt
      have hmod : pyRound (p * 10) % 10000 = pyRound (p * 10) := by omega
      rw [hmod]
  · intro h0 h1
    have hsh : (p + 1000) * 10 = p * 10 + ((10000 : ℤ) : ℝ) := by
      push_cast
      ring
    have hr : pyRound ((p + 1000) * 10) = pyRound (p * 10) + 10000 := by
      rw [hsh, pyRound_add_int_even _ 10000 (by omega)]
    simp only [encode_PPPP, hr]
    rw [if_pos (by omega), if_neg (by omega)]
    have : pyRound (p * 10) + 10000 - 10000 = pyRound (p * 10) := by omega
    rw [this]

/-- Witness for C4 at `p = 1013.2` (tenths 10132) and the collision pair at
`p = 500` / `p = 1500`. -/
theorem encode_PPPP_spec_witness :
    ((0 : ℤ) ≤ pyRound (((10132 : ℝ) / 10) * 10)
      ∧ pyRound (((10132 : ℝ) / 10) * 10) < 20000
      ∧ encode_PPPP (some ((10132 : ℝ) / 10)) = padInt 4 (pyRound (((10132 : ℝ) / 10) * 10) % 10000))
    ∧ ((0 : ℤ) ≤ pyRound ((500 : ℝ) * 10)
      ∧ pyRound ((500 : ℝ) * 10) < 10000
      ∧ encode_PPPP (some ((500 : ℝ) + 1000)) = encode_PPPP (some (500 : ℝ))) := by
  have e1 : ((10132 : ℝ) / 10) * 10 = ((10132 : ℤ) : ℝ) := by norm_num
  have h1 : pyRound (((10132 : ℝ) / 10) * 10) = 10132 := by rw [e1, pyRound_intCast]
  have e2 : (500 : ℝ) * 10 = ((5000 : ℤ) : ℝ) := by norm_num
  have h2 : pyRound ((500 : ℝ) * 10) = 5000 := by rw [e2, pyRound_intCast]
  exact ⟨⟨by omega, by omega, (encode_PPPP_spec ((10132 : ℝ) / 10)).2.1 (by omega) (by omega)⟩,
    ⟨by omega, by omega, (encode_PPPP_spec (500 : ℝ)).2.2 (by omega) (by omega)⟩⟩

/-- **C4 counterexample.** At `p = 2000` hPa the encoder emits the 5-digit
token `"10000"` (one wrap subtraction), not `round(p*10) mod 10000 = 0`
rendered `"0000"` as the claim states. -/
theorem encode_PPPP_claim_counterexample :
    encode_PPPP (some (2000 : ℝ)) = "10000"
    ∧ padInt 4 (pyRound ((2000 : ℝ) * 10) % 10000) = "0000"
    ∧ ("10000" : String) ≠ "0000" := by
  have e1 : (2000 : ℝ) * 10 = ((20000 : ℤ) : ℝ) := by norm_num
  have h1 : pyRound ((2000 : ℝ) * 10) = 20000 := by rw [e1, pyRound_intCast]
  refine ⟨?_, ?_, by decide⟩
  · simp only [encode_PPPP, h1]
    rw [if_pos (by omega)]
    decide
  · rw [h1]
    decide

set_option maxHeartbeats 2000000 in
theorem peakGo_gust_eval :
    peakGo [((0 : ℚ), (10 : ℚ)), (1, 10), (2, 10), (3, 20), (4, 20), (5, 20), (6, 20), (7, 20),
      (8, 20), (9, 20), (10, 20), (11, 20), (12, 20)] [] 0 0 0 = 210 / 11 := by
  rw [peakGo]; norm_num [evictOld, max_def]
  rw [peakGo]; norm_num [evictOld, max_def]
  rw [peakGo]; norm_num [evictOld, max_def]
  rw [peakGo]; norm_num [evictOld, max_def]
  rw [peakGo]; norm_num [evictOld, max_def]
  rw [peakGo]; norm_num [evictOld, max_def]
  rw [peakGo]; norm_num [evictOld, max_def]
  rw [peakGo]; norm_num [evictOld, max_def]
  rw [peakGo]; norm_num [evictOld, max_def]
  rw [peakGo]; norm_num [evictOld, max_def]
  rw [peakGo]; norm_num [evictOld, max_def]
  rw [peakGo]; norm_num [evictOld, max_def]
  rw [peakGo]; norm_num [evictOld, max_def]
  rw [peakGo]

theorem compute_peak10s_gust_eval :
    compute_peak10s gustTimes gustSpeeds = some ((210 / 11) * KTS_PER_MPS) := by
  have hsamples : (gustTimes.zip gustSpeeds).filterMap
      (fun p => match p.2 with | some s => some (p.1, s) | none => none)
      = [((0 : ℚ), (10 : ℚ)), (1, 10), (2, 10), (3, 20), (4, 20), (5, 20), (6, 20), (7, 20),
        (8, 20), (9, 20), (10, 20), (11, 20), (12, 20)] := by
    simp [gustTimes, gustSpeeds]
  unfold compute_peak10s
  rw [hsamples]
  rw [if_neg (by simp [gustTimes])]
  simp only [peakGo_gust_eval]
  rw [if_neg (by norm_num)]

/-- **C2 counterexample.** On the spec's 13-sample, 1 Hz bin the peak-gust
statistic is the windowed mean 210/11 m/s — the eviction keeps entries with
timestamp equal to `t - 10`, so the trailing window holds 11 one-hertz
samples — which is strictly below the arithmetic mean 20 m/s of the last 10
samples, contradicting the claimed `≥`. -/
theorem compute_peak10s_claim_counterexample :
    compute_peak10s gustTimes gustSpeeds = some ((210 / 11) * KTS_PER_MPS)
    ∧ ¬ ((20 : ℚ) ≤ 210 / 11) := by
  exact ⟨compute_peak10s_gust_eval, by norm_num⟩

/-- **C2 (amended).** On the spec's scenario the peak-gust statistic is the
trailing-window mean `210/11` m/s (11 samples: the window is inclusive at
`t − 10`), which is strictly less than the 20 m/s mean of the last 10
samples, and the returned value is that windowed mean converted to knots
with the `KTS_PER_MPS` factor. -/
theorem compute_peak10s_gust_spec :
    compute_peak10s gustTimes gustSpeeds = some ((210 / 11) * KTS_PER_MPS)
    ∧ (210 / 11 : ℚ) < 20
    ∧ (210 / 11 : ℚ) = (10 + 10 * 20) / 11 := by
  exact ⟨compute_peak10s_gust_eval, by norm_num, by norm_num⟩

/-- **C6.** For a non-empty sample sequence and any of the supported
interval lengths, the first bin's start (line 298) is the largest multiple
of the interval that is at most the first sample's epoch time. -/
theorem first_bin_start_spec (rows : List Row) (interval : ℕ)
    (hrows : rows ≠ []) (hint : interval ∈ [10, 30, 60, 120]) :
    binStartOf (hdobStart rows) interval ≤ hdobStart rows
    ∧ (∃ k : ℤ, binStartOf (hdobStart rows) interval = (k : ℚ) * (interval : ℚ))
    ∧ (∀ m : ℤ, (m : ℚ) * (interval : ℚ) ≤ hdobStart rows →
        (m : ℚ) * (interval : ℚ) ≤ binStartOf (hdobStart rows) interval) := by
  have hpos : (0 : ℚ) < (interval : ℚ) := by
    have : 0 < interval := by
      simp only [List.mem_cons, List.not_mem_nil, or_false] at hint
      rcases hint with h | h | h | h <;> omega
    exact_mod_cast this
  set t := hdobStart rows with ht
  refine ⟨?_, ⟨⌊t / (interval : ℚ)⌋, rfl⟩, ?_⟩
  · unfold binStartOf
    calc ((⌊t / (interval : ℚ)⌋ : ℤ) : ℚ) * (interval : ℚ)
        ≤ (t / (interval : ℚ)) * (interval : ℚ) := by
          have := Int.floor_le (t / (interval : ℚ))
          exact mul_le_mul_of_nonneg_right this hpos.le
      _ = t := div_mul_cancel₀ t hpos.ne'
  · intro m hm
    unfold binStartOf
    have hmle : (m : ℚ) ≤ t / (interval : ℚ) := by
      rw [le_div_iff₀ hpos]
      exact hm
    have hfl : m ≤ ⌊t / (interval : ℚ)⌋ := Int.le_floor.mpr hmle
    have : (m : ℚ) ≤ ((⌊t / (interval : ℚ)⌋ : ℤ) : ℚ) := by exact_mod_cast hfl
    exact mul_le_mul_of_nonneg_right this hpos.le

/-- Witness for C6: a single sample 17 s past a 30 s boundary (epoch 947);
the first bin starts at the floor boundary 930, not at 947. -/
theorem first_bin_start_spec_witness :
    ([⟨947, none, none, none, none, none, none, none, none⟩] ≠ ([] : List Row))
    ∧ (30 ∈ [10, 30, 60, 120])
    ∧ binStartOf (hdobStart [⟨947, none, none, none, none, none, none, none, none⟩]) 30
        ≤ hdobStart [⟨947, none, none, none, none, none, none, none, none⟩]
    ∧ binStartOf (hdobStart [⟨947, none, none, none, none, none, none, none, none⟩]) 30 = 930 := by
  have hst : hdobStart [(⟨947, none, none, none, none, none, none, none, none⟩ : Row)] = 947 := rfl
  have hbs : binStartOf (947 : ℚ) 30 = 930 := by
    unfold binStartOf
    have hc : (((30 : ℕ) : ℚ)) = 30 := by norm_num
    rw [hc]
    have hfl : (⌊(947 : ℚ) / 30⌋ : ℤ) = 31 := by norm_num
    rw [hfl]
    norm_num
  refine ⟨by simp, by simp, ?_, ?_⟩
  · exact (first_bin_start_spec _ 30 (by simp) (by simp)).1
  · rw [hst, hbs]

/-- **C5.** The composite altimetry field renders `////` when pressure or
altitude is missing; with station pressure ≥ 550 hPa it encodes the
extrapolated surface pressure through the pressure encoder; below 550 hPa
it encodes the D-value, folding a negative D by adding 5000 before reducing
mod 10000 — in particular a D-value of −120 m encodes as `4880`. -/
theorem encode_XXXX_spec (p zm : ℝ) (t : Option ℝ) :
    (∀ z2 : Option ℝ, encode_XXXX none z2 t = "////")
    ∧ (encode_XXXX (some p) none t = "////")
    ∧ ((550 : ℝ) ≤ p →
        encode_XXXX (some p) (some zm) t
          = encode_PPPP (extrapolate_surface_pressure (some p) (some zm) t))
    ∧ (p < 550 → ∀ d : ℤ, d_value_m (some zm) (some p) = some d →
        encode_XXXX (some p) (some zm) t = padInt 4 ((if d < 0 then 5000 + d else d) % 10000))
    ∧ (p < 550 → d_value_m (some zm) (some p) = some (-120) →
        encode_XXXX (some p) (some zm) t = "4880") := by
  have hbranch : p < 550 → ∀ d : ℤ, d_value_m (some zm) (some p) = some d →
      encode_XXXX (some p) (some zm) t = padInt 4 ((if d < 0 then 5000 + d else d) % 10000) := by
    intro hlt d hd
    simp only [encode_XXXX]
    rw [if_neg (not_le.mpr hlt), hd]
  refine ⟨fun z2 => ?_, rfl, ?_, hbranch, ?_⟩
  · cases z2 <;> rfl
  · intro hge
    simp only [encode_XXXX]
    rw [if_pos hge]
  · intro hlt hd
    rw [hbranch hlt (-120) hd]
    decide

/-- Witness for C5: pressure 500 hPa with the altitude chosen 120 m below
the ISA altitude of 500 hPa, so the D-value is exactly −120 and the field
encodes `4880`. -/
theorem encode_XXXX_spec_witness :
    ((500 : ℝ) < 550)
    ∧ d_value_m (some (isa_z_from_p 500 - 120)) (some (500 : ℝ)) = some (-120)
    ∧ encode_XXXX (some (500 : ℝ)) (some (isa_z_from_p 500 - 120)) none = "4880" := by
  have hd : d_value_m (some (isa_z_from_p 500 - 120)) (some (500 : ℝ)) = some (-120) := by
    simp only [d_value_m]
    have harg : isa_z_from_p 500 - 120 - isa_z_from_p 500 = (((-120 : ℤ) : ℝ)) := by
      push_cast
      ring
    rw [harg, pyRound_intCast]
  exact ⟨by norm_num, hd,
    (encode_XXXX_spec (500 : ℝ) (isa_z_from_p 500 - 120) none).2.2.2.2 (by norm_num) hd⟩

theorem isa_z_from_p_at_P0 : isa_z_from_p ((P0_STD : ℚ) : ℝ) = 0 := by
  unfold isa_z_from_p
  have hne : ((P0_STD : ℚ) : ℝ) ≠ 0 := by
    rw [P0_STD]
    push_cast
    norm_num
  rw [div_self hne, Real.one_rpow]
  norm_num

/-- **C3 (amended).** For present pressure and altitude the surface
extrapolation returns `p * exp(g0*z / (R*T_mean))` with
`T_mean = T_z + 0.5*L*z`, where `T_z` is the measured temperature converted
to kelvin when present, and otherwise the standard-atmosphere temperature
at the ISA altitude derived from the pressure itself (not at the sample's
own altitude `z`); it returns Missing when that mean-layer temperature is
non-positive, and is total (never raises) on the real-number model. -/
theorem extrapolate_surface_pressure_spec (p z tc : ℝ) :
    (extrapolate_surface_pressure (some p) (some z) (some tc)
      = (if (tc + 273.15) + 0.5 * (LAPSE : ℝ) * z ≤ 0 then none
         else some (p * Real.exp ((G0 : ℝ) * z
           / ((R_D : ℝ) * ((tc + 273.15) + 0.5 * (LAPSE : ℝ) * z))))))
    ∧ (extrapolate_surface_pressure (some p) (some z) none
      = (if ((T0_STD : ℝ) - (LAPSE : ℝ) * isa_z_from_p p) + 0.5 * (LAPSE : ℝ) * z ≤ 0 then none
         else some (p * Real.exp ((G0 : ℝ) * z
           / ((R_D : ℝ) * (((T0_STD : ℝ) - (LAPSE : ℝ) * isa_z_from_p p) + 0.5 * (LAPSE : ℝ) * z))))))
    ∧ (∀ t2 : Option ℝ, extrapolate_surface_pressure none (some z) t2 = none)
    ∧ (∀ t2 : Option ℝ, extrapolate_surface_pressure (some p) none t2 = none) := by
  refine ⟨rfl, rfl, fun t2 => rfl, fun t2 => ?_⟩
  cases t2 <;> rfl

/-- **C3 counterexample.** At standard pressure, altitude 1000 m and no
measured temperature, the code's fallback layer temperature is the ISA
temperature at the pressure-derived altitude (0 m, giving 288.15 K), not at
the sample's own altitude (281.65 K), so the returned pressure differs from
the claim's formula. -/
theorem extrapolate_surface_pressure_claim_counterexample :
    extrapolate_surface_pressure (some ((P0_STD : ℚ) : ℝ)) (some 1000) none
      ≠ specSurfacePressureC3 ((P0_STD : ℚ) : ℝ) 1000 none := by
  have hlt : ((T0_STD : ℚ) : ℝ) - ((LAPSE : ℚ) : ℝ) * 1000 + 0.5 * ((LAPSE : ℚ) : ℝ) * 1000
      < ((T0_STD : ℚ) : ℝ) - ((LAPSE : ℚ) : ℝ) * 0 + 0.5 * ((LAPSE : ℚ) : ℝ) * 1000 := by
    rw [T0_STD, LAPSE]
    push_cast
    norm_num
  have hpos : (0 : ℝ) < ((T0_STD : ℚ) : ℝ) - ((LAPSE : ℚ) : ℝ) * 1000 + 0.5 * ((LAPSE : ℚ) : ℝ) * 1000 := by
    rw [T0_STD, LAPSE]
    push_cast
    norm_num
  have hp0pos : (0 : ℝ) < ((P0_STD : ℚ) : ℝ) := by
    rw [P0_STD]
    push_cast
    norm_num
  have hcpos : (0 : ℝ) < ((G0 : ℚ) : ℝ) * 1000 := by
    rw [G0]
    push_cast
    norm_num
  have hrpos : (0 : ℝ) < ((R_D : ℚ) : ℝ) := by
    rw [R_D]
    push_cast
    norm_num
  unfold extrapolate_surface_pressure specSurfacePressureC3
  simp only [isa_z_from_p_at_P0]
  rw [if_neg (by nlinarith), if_neg (by nlinarith)]
  intro hcontra
  have heq := Option.some_injective _ hcontra
  have hexp : Real.exp (((G0 : ℚ) : ℝ) * 1000
        / (((R_D : ℚ) : ℝ) * (((T0_STD : ℚ) : ℝ) - ((LAPSE : ℚ) : ℝ) * 0 + 0.5 * ((LAPSE : ℚ) : ℝ) * 1000)))
      < Real.exp (((G0 : ℚ) : ℝ) * 1000
        / (((R_D : ℚ) : ℝ) * (((T0_STD : ℚ) : ℝ) - ((LAPSE : ℚ) : ℝ) * 1000 + 0.5 * ((LAPSE : ℚ) : ℝ) * 1000))) := by
    apply Real.exp_lt_exp.mpr
    apply div_lt_div_of_pos_left hcpos
    · positivity
    · apply mul_lt_mul_of_pos_left _ hrpos
      exact hlt
  have hT0 : ((T0_STD : ℚ) : ℝ) - ((LAPSE : ℚ) : ℝ) * 0 + 0.5 * ((LAPSE : ℚ) : ℝ) * 1000
      = ((T0_STD : ℚ) : ℝ) + 0.5 * ((LAPSE : ℚ) : ℝ) * 1000 := by ring
  nlinarith [heq, hexp, Real.exp_pos (((G0 : ℚ) : ℝ) * 1000
    / (((R_D : ℚ) : ℝ) * (((T0_STD : ℚ) : ℝ) - ((LAPSE : ℚ) : ℝ) * 1000 + 0.5 * ((LAPSE : ℚ) : ℝ) * 1000)))]

/-- **C1 (amended).** Every message produced by the chunking stage carries
the same header, whose stamp is the day-hour-minute rendering of the first
sample's timestamp plus half the interval (line 365); headers do not vary
with the message's own first line or its bin. -/
theorem hdob_message_headers_spec (rows : List Row) (mission : String) (stormDate : ℤ)
    (interval linesPerMsg : ℕ) (center wmo flags : String) :
    (hdobMsgLineLists rows mission stormDate interval linesPerMsg center wmo flags).map
        (fun m => m.headD "")
      = List.replicate (chunks linesPerMsg (hdobOutLines rows interval flags)).length
          (wmo ++ " " ++ center ++ " " ++ hdobDdhhmm rows interval) := by
  unfold hdobMsgLineLists
  rw [List.map_map]
  have hc : ((fun m => List.headD m "") ∘ (fun (p : ℕ × List String) =>
      (wmo ++ " " ++ center ++ " " ++ hdobDdhhmm rows interval) ::
      (mission ++ " HDOB " ++ padInt 2 ((p.1 : ℤ) + 1) ++ " " ++ yyyymmddOf stormDate) ::
      (p.2 ++ ["$$"])))
      = fun _ => (wmo ++ " " ++ center ++ " " ++ hdobDdhhmm rows interval) := rfl
  rw [hc, List.map_const', List.enum_length]

/-- **C1 counterexample.** A single sample at epoch 3659 (01:00:59 UTC) with
interval 60 s: its bin starts at 3600, so the claimed header stamp — the
first line's bin midpoint, 3630 = 01:00:30 — renders `010100`, but the
produced message header carries `010101`, the day-hour-minute of the first
sample's own timestamp plus half the interval (3659 + 30 = 01:01:29). -/
theorem hdob_message_headers_claim_counterexample :
    ((hdobMsgLineLists [⟨3659, none, none, none, none, none, none, none, none⟩]
        "AFXXX" 0 60 20 "KNHC" "URNT15" "00").headD []).headD ""
      = "URNT15 KNHC 010101"
    ∧ ddhhmmOf (binStartOf (hdobStart [⟨3659, none, none, none, none, none, none, none, none⟩]) 60
        + ((60 / 2 : ℕ) : ℚ)) = "010100"
    ∧ ("URNT15 KNHC 010101" : String) ≠ "URNT15 KNHC 010100" := by
  have hstart : hdobStart [(⟨3659, none, none, none, none, none, none, none, none⟩ : Row)] = 3659 := rfl
  have hcast : ((60 : ℕ) : ℚ) = 60 := by norm_num
  have hhalf : (((60 / 2 : ℕ) : ℕ) : ℚ) = 30 := by norm_num
  have hbs : binStartOf (3659 : ℚ) 60 = 3600 := by
    unfold binStartOf
    rw [hcast]
    have hfl : (⌊(3659 : ℚ) / 60⌋ : ℤ) = 60 := by norm_num
    rw [hfl]
    norm_num
  constructor
  · have hout : hdobOutLines [(⟨3659, none, none, none, none, none, none, none, none⟩ : Row)] 60 "00"
        = [renderLine "00" [⟨3659, none, none, none, none, none, none, none, none⟩] 3630] := by
      unfold hdobOutLines
      rw [hstart, hbs]
      have hsort : sortRows [(⟨3659, none, none, none, none, none, none, none, none⟩ : Row)]
          = [⟨3659, none, none, none, none, none, none, none, none⟩] := rfl
      rw [hsort]
      rw [binLoop]
      have hlt : (3659 : ℚ) < 3600 + ((60 : ℕ) : ℚ) := by rw [hcast]; norm_num
      rw [dif_neg (by norm_num : ¬(60 = 0))]
      norm_num [List.takeWhile_cons, List.dropWhile_cons]
      rw [binLoop]
    unfold hdobMsgLineLists
    rw [hout]
    have hch : chunks 20 [renderLine "00" [(⟨3659, none, none, none, none, none, none, none, none⟩ : Row)] 3630]
        = [[renderLine "00" [⟨3659, none, none, none, none, none, none, none, none⟩] 3630]] := by
      rw [chunks]
      simp [chunks]
    rw [hch]
    have hdd : hdobDdhhmm [(⟨3659, none, none, none, none, none, none, none, none⟩ : Row)] 60
        = "010101" := by
      unfold hdobDdhhmm
      rw [hstart, hhalf]
      have : (3659 : ℚ) + 30 = 3689 := by norm_num
      rw [this]
      decide
    rw [hdd]
    simp [List.enum]
  · constructor
    · rw [hstart, hbs, hhalf]
      have : (3600 : ℚ) + 30 = 3630 := by norm_num
      rw [this]
      decide
    · decide

theorem zip_replicate_same {α β : Type} (N : ℕ) (a : α) (b : β) :
    (List.replicate N a).zip (List.replicate N b) = List.replicate N (a, b) := by
  induction N with
  | zero => rfl
  | succ k ih => simp [List.replicate_succ, ih]

theorem windAccum_foldl_replicate (d s : ℚ) (N : ℕ) (u v : ℝ) (n : ℕ) :
    List.foldl windAccum (u, v, n) (List.replicate N (some d, some s))
      = (u + N * (-((s : ℝ)) * Real.sin ((d : ℝ) * Real.pi / 180)),
         v + N * (-((s : ℝ)) * Real.cos ((d : ℝ) * Real.pi / 180)),
         n + N) := by
  induction N generalizing u v n with
  | zero => simp
  | succ k ih =>
    rw [List.replicate_succ, List.foldl_cons]
    simp only [windAccum]
    rw [ih]
    simp only [Prod.mk.injEq]
    refine ⟨by push_cast; ring, by push_cast; ring, by omega⟩

theorem vector_mean_wind_replicate_eval (N : ℕ) (hN : N ≠ 0) (d s : ℚ) :
    vector_mean_wind (List.replicate N (some d)) (List.replicate N (some s))
      = (some (fmodR (atan2 ((s : ℝ) * Real.sin ((d : ℝ) * Real.pi / 180))
                            ((s : ℝ) * Real.cos ((d : ℝ) * Real.pi / 180)) * 180 / Real.pi + 360) 360),
         some (hypot (-((s : ℝ)) * Real.sin ((d : ℝ) * Real.pi / 180))
                     (-((s : ℝ)) * Real.cos ((d : ℝ) * Real.pi / 180)))) := by
  unfold vector_mean_wind
  rw [if_neg (by simp [List.isEmpty_iff, List.replicate_eq_nil_iff, hN])]
  rw [zip_replicate_same, windAccum_foldl_replicate]
  have hNR : ((N : ℕ) : ℝ) ≠ 0 := Nat.cast_ne_zero.mpr hN
  simp only []
  rw [if_neg (by simpa using hN)]
  have hu : (0 + (N : ℝ) * (-((s : ℝ)) * Real.sin ((d : ℝ) * Real.pi / 180))) / (((0 + N : ℕ)) : ℝ)
      = -((s : ℝ)) * Real.sin ((d : ℝ) * Real.pi / 180) := by
    push_cast
    field_simp
    ring
  have hv : (0 + (N : ℝ) * (-((s : ℝ)) * Real.cos ((d : ℝ) * Real.pi / 180))) / (((0 + N : ℕ)) : ℝ)
      = -((s : ℝ)) * Real.cos ((d : ℝ) * Real.pi / 180) := by
    push_cast
    field_simp
    ring
  rw [hu, hv]
  have hnu : -(-((s : ℝ)) * Real.sin ((d : ℝ) * Real.pi / 180))
      = (s : ℝ) * Real.sin ((d : ℝ) * Real.pi / 180) := by ring
  have hnv : -(-((s : ℝ)) * Real.cos ((d : ℝ) * Real.pi / 180))
      = (s : ℝ) * Real.cos ((d : ℝ) * Real.pi / 180) := by ring
  rw [hnu, hnv]

theorem atan2_pos_mul (s r : ℝ) (hs : 0 < s) (hr : r ∈ Set.Ioc (-Real.pi) Real.pi) :
    atan2 (s * Real.sin r) (s * Real.cos r) = r := by
  unfold atan2
  have hfac : (Complex.ofReal (s * Real.cos r) + Complex.ofReal (s * Real.sin r) * Complex.I)
      = (s : ℂ) * (Complex.cos (r : ℂ) + Complex.sin (r : ℂ) * Complex.I) := by
    rw [← Complex.ofReal_cos, ← Complex.ofReal_sin]
    push_cast
    ring
  rw [hfac, Complex.arg_mul_cos_add_sin_mul_I hs hr]

/-- **C9.** The vector-mean wind of `N ≥ 1` identical (direction, speed)
pairs, for a direction in `[0, 360)` and a positive speed, is exactly that
direction and speed. -/
theorem vector_mean_wind_identical_spec (N : ℕ) (d s : ℚ) (hN : 1 ≤ N)
    (hd0 : 0 ≤ d) (hd1 : d < 360) (hs : 0 < s) :
    vector_mean_wind (List.replicate N (some d)) (List.replicate N (some s))
      = (some ((d : ℝ)), some ((s : ℝ))) := by
  have hNne : N ≠ 0 := by omega
  rw [vector_mean_wind_replicate_eval N hNne d s]
  set r := (d : ℝ) * Real.pi / 180 with hrdef
  have hsR : (0 : ℝ) < (s : ℝ) := by exact_mod_cast hs
  have hd0R : (0 : ℝ) ≤ (d : ℝ) := by exact_mod_cast hd0
  have hd1R : ((d : ℝ)) < 360 := by exact_mod_cast hd1
  have hπ := Real.pi_pos
  have hr0 : 0 ≤ r := by
    rw [hrdef]
    have h1 : (0 : ℝ) ≤ (d : ℝ) * Real.pi := mul_nonneg hd0R hπ.le
    linarith [div_nonneg h1 (by norm_num : (0 : ℝ) ≤ 180)]
  have hr2 : r < 2 * Real.pi := by
    rw [hrdef, div_lt_iff₀ (by norm_num : (0 : ℝ) < 180)]
    nlinarith
  have hspd : hypot (-((s : ℝ)) * Real.sin r) (-((s : ℝ)) * Real.cos r) = (s : ℝ) := by
    unfold hypot
    have h1 : (-((s : ℝ)) * Real.sin r) ^ 2 + (-((s : ℝ)) * Real.cos r) ^ 2 = ((s : ℝ)) ^ 2 := by
      have h2 := Real.sin_sq_add_cos_sq r
      nlinarith
    rw [h1, Real.sqrt_sq hsR.le]
  rw [hspd]
  by_cases hcase : r ≤ Real.pi
  · have harg : atan2 ((s : ℝ) * Real.sin r) ((s : ℝ) * Real.cos r) = r :=
      atan2_pos_mul _ _ hsR ⟨by linarith, hcase⟩
    rw [harg]
    have hdeg : r * 180 / Real.pi = (d : ℝ) := by
      rw [hrdef]
      field_simp
    rw [hdeg]
    have hfmod : fmodR ((d : ℝ) + 360) 360 = (d : ℝ) := by
      unfold fmodR
      have hfl : ⌊((d : ℝ) + 360) / 360⌋ = 1 := by
        rw [Int.floor_eq_iff]
        constructor
        · rw [le_div_iff₀ (by norm_num : (0 : ℝ) < 360)]
          push_cast
          linarith
        · rw [div_lt_iff₀ (by norm_num : (0 : ℝ) < 360)]
          push_cast
          linarith
      rw [hfl]
      push_cast
      ring
    rw [hfmod]
  · push_neg at hcase
    have harg : atan2 ((s : ℝ) * Real.sin r) ((s : ℝ) * Real.cos r) = r - 2 * Real.pi := by
      rw [show Real.sin r = Real.sin (r - 2 * Real.pi) from (Real.sin_sub_two_pi r).symm,
          show Real.cos r = Real.cos (r - 2 * Real.pi) from (Real.cos_sub_two_pi r).symm]
      exact atan2_pos_mul _ _ hsR ⟨by linarith, by linarith⟩
    rw [harg]
    have hdeg : (r - 2 * Real.pi) * 180 / Real.pi = (d : ℝ) - 360 := by
      rw [hrdef]
      field_simp
      ring
    rw [hdeg]
    have hfmod : fmodR ((d : ℝ) - 360 + 360) 360 = (d : ℝ) := by
      have he : ((d : ℝ) - 360 + 360) = (d : ℝ) := by ring
      rw [he]
      unfold fmodR
      have hfl : ⌊((d : ℝ)) / 360⌋ = 0 := by
        rw [Int.floor_eq_iff]
        constructor
        · push_cast
          exact div_nonneg hd0R (by norm_num)
        · rw [div_lt_iff₀ (by norm_num : (0 : ℝ) < 360)]
          push_cast
          linarith
      rw [hfl]
      push_cast
      ring
    rw [hfmod]

/-- Witness for C9 at `N = 1`, direction 0, speed 1. -/
theorem vector_mean_wind_identical_spec_witness :
    (1 ≤ 1) ∧ ((0 : ℚ) ≤ 0) ∧ ((0 : ℚ) < 360) ∧ ((0 : ℚ) < 1)
    ∧ vector_mean_wind (List.replicate 1 (some (0 : ℚ))) (List.replicate 1 (some (1 : ℚ)))
        = (some (((0 : ℚ) : ℝ)), some (((1 : ℚ) : ℝ))) := by
  exact ⟨le_refl 1, le_refl 0, by norm_num, by norm_num,
    vector_mean_wind_identical_spec 1 0 1 (le_refl 1) (le_refl 0) (by norm_num) (by norm_num)⟩
